import Mathlib

/-!
Shallow embedding of the video-translation pipeline of
`src/youtube_translator.py` (class `FixedYouTubeTranslatorNoPyAudio`).

External collaborators (yt_dlp, ffmpeg, whisper, GoogleTranslator, gTTS)
are modelled as oracles supplied as parameters; the temp directory is
modelled as a list of file names; fractional seconds are modelled as
rationals.  Python exceptions are modelled by explicit outcome types:
an oracle either returns a value, returns a falsy value (None or an
empty string / list), or raises.
-/

namespace YTTranslator

/-- Contiguous-sublist test on character lists; models Python substring
containment as used by the `*<video_id>*` glob pattern. -/
def containsAux (sub : List Char) : List Char → Bool
  | [] => sub.isEmpty
  | c :: rest => sub.isPrefixOf (c :: rest) || containsAux sub rest

/-- `containsSub s sub` holds when `sub` occurs contiguously inside `s`. -/
def containsSub (s sub : String) : Bool :=
  containsAux sub.toList s.toList

/-- `strStarts p s`: `s` starts with `p`; models the glob `p*` on a file name. -/
def strStarts (p s : String) : Bool :=
  p.toList.isPrefixOf s.toList

/-- `strEnds p s`: `s` ends with `p`; models the glob `*p` on a file name. -/
def strEnds (p s : String) : Bool :=
  p.toList.reverse.isPrefixOf s.toList.reverse

/-- Glob `speech_*.mp3`: the names of the per-segment TTS synthesis files
`speech_{i:04d}.mp3` written by `create_translated_audio_ffmpeg`. -/
def speechGlob (f : String) : Bool :=
  strStarts "speech_" f && strEnds ".mp3" f

/-- Glob `positioned_*.wav`: the names of the per-segment positioned clips
`positioned_{i:04d}.wav` written by `create_translated_audio_ffmpeg`. -/
def positionedGlob (f : String) : Bool :=
  strStarts "positioned_" f && strEnds ".wav" f

/-- A temp-file name matched by at least one of the four patterns that
`_clean_temp_files` (lines 418-426) globs and unlinks:
`{video_id}*`, `*{video_id}*`, `speech_*.mp3`, `positioned_*.wav`. -/
def globMatchesJob (video_id f : String) : Bool :=
  strStarts video_id f || containsSub f video_id || speechGlob f || positionedGlob f

/-- `_clean_temp_files` (lines 418-426): unlinks every file in the temp
directory matching one of the four patterns.  The temp directory is the
list of file names; unlinking is filtering. -/
def _clean_temp_files (video_id : String) (files : List String) : List String :=
  files.filter (fun f => !(globMatchesJob video_id f))

/-- Python `str.strip()`: remove leading and trailing whitespace.
(Defined over the character list so concrete instances evaluate.) -/
def pyStrip (s : String) : String :=
  String.mk (((s.toList.dropWhile Char.isWhitespace).reverse.dropWhile Char.isWhitespace).reverse)

/-- A Whisper transcript segment (`result['segments'][i]`):
`{text, start, end}` with times in seconds. -/
structure Segment where
  text : String
  start : ℚ
  «end» : ℚ
  deriving DecidableEq

/-- An element of the list built by `translate_segments` (lines 223-273):
`{original, translated, start, end}`. -/
structure TranslatedSegment where
  original : String
  translated : String
  start : ℚ
  «end» : ℚ
  deriving DecidableEq

/-- Outcome of one call to `GoogleTranslator(...).translate(text)`:
the call either returns an `Optional[str]` or raises. -/
inductive TransResult where
  | ok (val : Option String)
  | exn
  deriving DecidableEq

/-- `translate_segments` (lines 223-273).  For each segment whose stripped
text is non-empty it calls the translator; if the call returns a truthy
string different from the input, that string is recorded as `translated`,
otherwise (falsy result, identical result, or a raised exception) the
original text is recorded.  Segments with empty stripped text are skipped.
The translator oracle maps the stripped input text to a call outcome. -/
def translate_segments (translator : String → TransResult) : List Segment → List TranslatedSegment
  | [] => []
  | seg :: rest =>
    if pyStrip seg.text = "" then
      translate_segments translator rest
    else
      match translator (pyStrip seg.text) with
      | .ok (some translated_text) =>
        if translated_text ≠ "" ∧ translated_text ≠ pyStrip seg.text then
          ⟨pyStrip seg.text, translated_text, seg.start, seg.«end»⟩ :: translate_segments translator rest
        else
          ⟨pyStrip seg.text, pyStrip seg.text, seg.start, seg.«end»⟩ :: translate_segments translator rest
      | .ok none =>
        ⟨pyStrip seg.text, pyStrip seg.text, seg.start, seg.«end»⟩ :: translate_segments translator rest
      | .exn =>
        ⟨pyStrip seg.text, pyStrip seg.text, seg.start, seg.«end»⟩ :: translate_segments translator rest

/-- The per-segment transform applied by `translate_segments` to a segment
that is kept (non-empty stripped text): used to state that the output is
exactly the image of the non-empty-text subsequence. -/
def translateOne (translator : String → TransResult) (seg : Segment) : TranslatedSegment :=
  let translated :=
    match translator (pyStrip seg.text) with
    | .ok (some t) => if t ≠ "" ∧ t ≠ pyStrip seg.text then t else pyStrip seg.text
    | .ok none => pyStrip seg.text
    | .exn => pyStrip seg.text
  ⟨pyStrip seg.text, translated, seg.start, seg.«end»⟩

/-- `max(seg['end'] for seg in translated_segments)` (line 285); Python's
`max` over a non-empty sequence.  (Returns `0` on `[]`, a case the caller
rules out on line 279.) -/
def maxEnd : List TranslatedSegment → ℚ
  | [] => 0
  | [seg] => seg.«end»
  | seg :: rest => max seg.«end» (maxEnd rest)

/-- Python `f"{i:04d}"`: decimal digits left-padded with zeros to width 4. -/
def pad4 (n : Nat) : String :=
  let s := toString n
  if s.length ≥ 4 then s else String.mk (List.replicate (4 - s.length) '0' ++ s.toList)

/-- `f"speech_{i:04d}.mp3"` (line 311). -/
def speechName (i : Nat) : String :=
  "speech_" ++ (pad4 i ++ ".mp3")

/-- `f"positioned_{i:04d}.wav"` (line 325). -/
def positionedName (i : Nat) : String :=
  "positioned_" ++ (pad4 i ++ ".wav")

/-- Oracle for the external effects of `create_translated_audio_ffmpeg`
(lines 275-385): the silence-generation subprocess, the per-segment gTTS
call (indexed by segment position; `none` = the call or `save` raised,
`some sz` = the speech file exists with `sz` bytes), the per-segment
positioning subprocess, the positioned-file existence check, the mixing
subprocess, and the final mixed file (`none` = missing). -/
structure SynthOracle where
  silenceFails : Bool
  tts : Nat → String → Option Nat
  positionFails : Nat → Bool
  positionedExists : Nat → Bool
  mixFails : Bool
  finalSize : Option Nat

/-- Loop state of the per-segment loop of `create_translated_audio_ffmpeg`
(lines 299-346): the temp-directory contents, every temp name created so
far during this stage, and the `successful_segments` counter. -/
structure SynthLoopState where
  files : List String
  created : List String
  successful_segments : Nat
  deriving DecidableEq

/-- The per-segment loop of `create_translated_audio_ffmpeg`
(lines 299-346), starting at segment index `i`.  Per iteration: skip if
the translated text strips to empty; run gTTS (a raise is caught and the
loop continues); skip (leaving the speech file behind) if the speech file
is missing or empty; run the positioning command (a raise is caught,
leaving the speech file behind); if the positioned file exists, count it
as successful; finally unlink the speech file. -/
def synthLoop (o : SynthOracle) : Nat → List TranslatedSegment → SynthLoopState → SynthLoopState
  | _, [], st => st
  | i, seg :: rest, st =>
    if pyStrip seg.translated = "" then
      synthLoop o (i + 1) rest st
    else
      match o.tts i (pyStrip seg.translated) with
      | none => synthLoop o (i + 1) rest st
      | some sz =>
        if sz = 0 then
          synthLoop o (i + 1) rest
            ⟨st.files ++ [speechName i], st.created ++ [speechName i], st.successful_segments⟩
        else if o.positionFails i then
          synthLoop o (i + 1) rest
            ⟨st.files ++ [speechName i], st.created ++ [speechName i], st.successful_segments⟩
        else if o.positionedExists i then
          synthLoop o (i + 1) rest
            ⟨((st.files ++ [speechName i]) ++ [positionedName i]).filter
                (fun f => f != speechName i),
              (st.created ++ [speechName i]) ++ [positionedName i],
              st.successful_segments + 1⟩
        else
          synthLoop o (i + 1) rest
            ⟨(st.files ++ [speechName i]).filter (fun f => f != speechName i),
              st.created ++ [speechName i],
              st.successful_segments⟩

/-- Result of `create_translated_audio_ffmpeg`: the returned path (or
`None`), the temp-directory contents on return, every temp name the stage
created, and the duration passed to the silence command (`none` when the
command was never issued). -/
structure SynthRun where
  result : Option String
  files : List String
  created : List String
  silenceDuration : Option ℚ
  deriving DecidableEq

/-- `create_translated_audio_ffmpeg` (lines 275-385).  Returns `None` for
an empty segment list; computes `total_duration = max(end)`; creates the
silence base track (a raise aborts via the outer handler); runs the
per-segment loop; returns `None` when `successful_segments == 0` (leaving
the base track and any stray files in place); mixes (a raise aborts,
leaving positioned clips and the base track in place); on a completed mix
unlinks every `positioned_*.wav` and the base track; finally checks that
the mixed file exists and is non-empty. -/
def create_translated_audio_ffmpeg (o : SynthOracle) (translated_segments : List TranslatedSegment)
    (video_id : String) (files0 : List String) : SynthRun :=
  if translated_segments.isEmpty then
    ⟨none, files0, [], none⟩
  else
    let total_duration := maxEnd translated_segments
    if o.silenceFails then
      ⟨none, files0, [], some total_duration⟩
    else
      let base := video_id ++ "_base_silence.wav"
      let st := synthLoop o 0 translated_segments ⟨files0 ++ [base], [base], 0⟩
      if st.successful_segments = 0 then
        ⟨none, st.files, st.created, some total_duration⟩
      else if o.mixFails then
        ⟨none, st.files, st.created, some total_duration⟩
      else
        let final := video_id ++ "_final_audio.wav"
        let filesAfterMix :=
          match o.finalSize with
          | some _ => st.files ++ [final]
          | none => st.files
        let createdAfterMix :=
          match o.finalSize with
          | some _ => st.created ++ [final]
          | none => st.created
        let filesCleaned :=
          ((filesAfterMix.filter (fun g => !(positionedGlob g))).filter (fun g => g != base))
        match o.finalSize with
        | none => ⟨none, filesCleaned, createdAfterMix, some total_duration⟩
        | some 0 => ⟨none, filesCleaned, createdAfterMix, some total_duration⟩
        | some (_ + 1) => ⟨some final, filesCleaned, createdAfterMix, some total_duration⟩

/-- Outcome of one download strategy (lines 97-116): `extract_info` /
`prepare_filename` either raise, or yield a path whose on-disk size is
`some n` bytes (`none` = the file does not exist). -/
inductive DlOutcome where
  | exn
  | got (path : String) (size : Option Nat)
  deriving DecidableEq

/-- Strategy `i` succeeded: it returned a path whose file exists with more
than 1000 bytes (line 106). -/
def dlSucc (dl : Nat → DlOutcome) (i : Nat) : Bool :=
  match dl i with
  | .got _ (some n) => decide (1000 < n)
  | _ => false

/-- The path yielded by strategy `i` (junk `""` when the strategy raised);
only consulted when `dlSucc` holds. -/
def dlPathD (dl : Nat → DlOutcome) (i : Nat) : String :=
  match dl i with
  | .got p _ => p
  | .exn => ""

/-- The strategy loop of `download_video_robust` (lines 97-116): try each
strategy in order, stopping at the first whose file exists with more than
1000 bytes; returns the chosen path (or `none`) and the list of strategy
indices attempted, in order. -/
def tryDownloadStrategies (dl : Nat → DlOutcome) : List Nat → Option String × List Nat
  | [] => (none, [])
  | i :: rest =>
    match dl i with
    | .exn =>
      ((tryDownloadStrategies dl rest).1, i :: (tryDownloadStrategies dl rest).2)
    | .got p sz =>
      match sz with
      | some n =>
        if 1000 < n then (some p, [i])
        else ((tryDownloadStrategies dl rest).1, i :: (tryDownloadStrategies dl rest).2)
      | none =>
        ((tryDownloadStrategies dl rest).1, i :: (tryDownloadStrategies dl rest).2)

/-- Outcome of one ffmpeg extraction attempt (lines 152-177):
`subprocess.run(..., timeout=120, check=True)` returns normally, raises
`CalledProcessError` (non-zero exit), raises `TimeoutExpired`, or raises
some other exception. -/
inductive CmdOutcome where
  | ok
  | nonzero
  | timeout
  | exn
  deriving DecidableEq

/-- Oracle for `_extract_audio_ffmpeg`: the outcome of command `i`, and
the state of the output audio file when checked after command `i`
(`none` = missing, `some n` = exists with `n` bytes). -/
structure ExtOracle where
  run : Nat → CmdOutcome
  sizeAfter : Nat → Option Nat

/-- Command `i` succeeded: the subprocess returned normally and the audio
file exists with more than 1000 bytes (line 165). -/
def extSucc (o : ExtOracle) (i : Nat) : Bool :=
  match o.run i, o.sizeAfter i with
  | .ok, some n => decide (1000 < n)
  | _, _ => false

/-- The command loop of `_extract_audio_ffmpeg` (lines 152-177): any
raised `CalledProcessError`, `TimeoutExpired` or other exception moves on
to the next command; after a normal return the audio file must exist with
more than 1000 bytes, otherwise the loop also moves on.  Returns the
`(video_path, audio_path)` pair on success and the attempted indices. -/
def extLoop (o : ExtOracle) (video_path audio_path : String) : List Nat → Option (String × String) × List Nat
  | [] => (none, [])
  | i :: rest =>
    match o.run i with
    | .ok =>
      match o.sizeAfter i with
      | some n =>
        if 1000 < n then (some (video_path, audio_path), [i])
        else ((extLoop o video_path audio_path rest).1, i :: (extLoop o video_path audio_path rest).2)
      | none =>
        ((extLoop o video_path audio_path rest).1, i :: (extLoop o video_path audio_path rest).2)
    | .nonzero =>
      ((extLoop o video_path audio_path rest).1, i :: (extLoop o video_path audio_path rest).2)
    | .timeout =>
      ((extLoop o video_path audio_path rest).1, i :: (extLoop o video_path audio_path rest).2)
    | .exn =>
      ((extLoop o video_path audio_path rest).1, i :: (extLoop o video_path audio_path rest).2)

/-- Result of `_extract_audio_ffmpeg`: the `(video_path, audio_path)`
pair (both `none` on failure, line 180) and the attempted command
indices. -/
structure ExtRun where
  video : Option String
  audio : Option String
  attempts : List Nat
  deriving DecidableEq

/-- `_extract_audio_ffmpeg` (lines 125-180): writes to
`{video_id}_audio.wav` and tries the three ffmpeg commands in order. -/
def _extract_audio_ffmpeg (o : ExtOracle) (video_path : String) (video_id : String) : ExtRun :=
  let audio_path := video_id ++ "_audio.wav"
  match extLoop o video_path audio_path [0, 1, 2] with
  | (some (v, a), t) => ⟨some v, some a, t⟩
  | (none, t) => ⟨none, none, t⟩

/-- Result of `download_video_robust`: the `(video_path, audio_path)`
pair, the download-strategy indices attempted, and the temp directory
after the initial `_clean_temp_files` call. -/
structure DlRun where
  video : Option String
  audio : Option String
  attempts : List Nat
  files : List String
  deriving DecidableEq

/-- `download_video_robust` (lines 59-123): first clears pre-existing
temp files matching the job id, then tries the three download strategies
in order; if none yields a large-enough file it returns `(None, None)`;
otherwise it hands the downloaded path to `_extract_audio_ffmpeg`. -/
def download_video_robust (dl : Nat → DlOutcome) (ext : ExtOracle) (video_id : String)
    (files0 : List String) : DlRun :=
  let files1 := _clean_temp_files video_id files0
  match tryDownloadStrategies dl [0, 1, 2] with
  | (none, attempts) => ⟨none, none, attempts, files1⟩
  | (some p, attempts) =>
    let e := _extract_audio_ffmpeg ext p video_id
    ⟨e.video, e.audio, attempts, files1⟩

/-- Outcome of one pipeline stage as seen by `translate_video`: a
returned value, a raised exception (caught by `except Exception`), or a
raised `KeyboardInterrupt` (caught by `except KeyboardInterrupt`). -/
inductive PyOutcome (α : Type) where
  | val (a : α)
  | exn
  | interrupt

/-- Stage behaviours for one run of `translate_video` (lines 428-503).
Each stage is summarised by the temp files it leaves behind and its
outcome; the translation stage is the concrete `translate_segments`
(which cannot raise), driven by the translator oracle.
`dlOut = val (none, none)` models `download_video_robust` failing after
its internal fallbacks; `txOut = val none` models `transcribe_audio`
returning `None`; `synthOut = val none` models
`create_translated_audio_ffmpeg` returning `None`; `mergeOut = val false`
models `merge_video_audio` returning `False`. -/
structure PipeEnv where
  dlFiles : List String
  dlOut : PyOutcome (Option String × Option String)
  txOut : PyOutcome (Option (List Segment))
  translator : String → TransResult
  synthFiles : List String
  synthOut : PyOutcome (Option String)
  mergeOut : PyOutcome Bool

/-- Which terminal branch of `translate_video` a run took: the success
return (line 494), an early `return None` after a falsy stage result
(lines 446, 452, 461, 470, 481), or one of the two exception handlers
(lines 496-503). -/
inductive TerminalKind where
  | success
  | stageNull
  | raised
  deriving DecidableEq

/-- Result of `translate_video`: the returned output path (or `None`),
the temp-directory contents on return, and which terminal branch
returned. -/
structure PipeRun where
  result : Option String
  files : List String
  terminal : TerminalKind

/-- `translate_video` (lines 428-503).  The `try` body runs the stages in
order; a falsy stage result returns `None` immediately (no cleanup on
those paths); the success path and both `except` handlers call
`_clean_temp_files` before returning.  `download_video_robust` itself
first clears job-matching temp files, then leaves `dlFiles` behind. -/
def translate_video (env : PipeEnv) (video_id : String) (files0 : List String) : PipeRun :=
  let f1 := _clean_temp_files video_id files0 ++ env.dlFiles
  match env.dlOut with
  | .exn => ⟨none, _clean_temp_files video_id f1, .raised⟩
  | .interrupt => ⟨none, _clean_temp_files video_id f1, .raised⟩
  | .val (video_path, audio_path) =>
    if video_path.isNone || audio_path.isNone then ⟨none, f1, .stageNull⟩
    else
      match env.txOut with
      | .exn => ⟨none, _clean_temp_files video_id f1, .raised⟩
      | .interrupt => ⟨none, _clean_temp_files video_id f1, .raised⟩
      | .val none => ⟨none, f1, .stageNull⟩
      | .val (some segments) =>
        if segments.isEmpty then ⟨none, f1, .stageNull⟩
        else
          let translated_segments := translate_segments env.translator segments
          if translated_segments.isEmpty then ⟨none, f1, .stageNull⟩
          else
            let f3 := f1 ++ env.synthFiles
            match env.synthOut with
            | .exn => ⟨none, _clean_temp_files video_id f3, .raised⟩
            | .interrupt => ⟨none, _clean_temp_files video_id f3, .raised⟩
            | .val none => ⟨none, f3, .stageNull⟩
            | .val (some _) =>
              match env.mergeOut with
              | .exn => ⟨none, _clean_temp_files video_id f3, .raised⟩
              | .interrupt => ⟨none, _clean_temp_files video_id f3, .raised⟩
              | .val false => ⟨none, f3, .stageNull⟩
              | .val true =>
                ⟨some (video_id ++ ".mp4"), _clean_temp_files video_id f3, .success⟩

/-- Concrete run used against C1: the download stage leaves the
downloaded video `job_en.mp4` behind (audio extraction failed, so
`download_video_robust` returned `(None, None)`). -/
def envDlFail : PipeEnv where
  dlFiles := ["job_en.mp4"]
  dlOut := .val (none, none)
  txOut := .val none
  translator := fun _ => .exn
  synthFiles := []
  synthOut := .val none
  mergeOut := .val false

/-- Concrete fully-successful run used as a witness for C1. -/
def envAllOk : PipeEnv where
  dlFiles := ["job_en.mp4", "job_en_audio.wav"]
  dlOut := .val (some "job_en.mp4", some "job_en_audio.wav")
  txOut := .val (some [⟨"hola", 0, 1⟩])
  translator := fun _ => .ok (some "hello")
  synthFiles := ["job_en_final_audio.wav", "speech_0000.mp3"]
  synthOut := .val (some "job_en_final_audio.wav")
  mergeOut := .val true

/-- Concrete synthesis oracle where every gTTS call raises. -/
def synthOracleAllTTSFail : SynthOracle where
  silenceFails := false
  tts := fun _ _ => none
  positionFails := fun _ => false
  positionedExists := fun _ => false
  mixFails := false
  finalSize := none

/-- Concrete synthesis oracle where every external call succeeds. -/
def synthOracleOk : SynthOracle where
  silenceFails := false
  tts := fun _ _ => some 5
  positionFails := fun _ => false
  positionedExists := fun _ => true
  mixFails := false
  finalSize := some 9

/-- Concrete download oracle: strategies 1 and 2 raise, strategy 3
yields a 5000-byte file. -/
def wDl : Nat → DlOutcome :=
  fun i => if i = 2 then .got "v_en.mp4" (some 5000) else .exn

/-- Concrete extraction oracle: command 1 times out, command 2 exits
non-zero, command 3 succeeds leaving a 2000-byte audio file. -/
def wExt : ExtOracle where
  run := fun i => if i = 0 then .timeout else if i = 1 then .nonzero else .ok
  sizeAfter := fun _ => some 2000

/-! ### Helper lemmas -/

theorem translateOne_original (translator : String → TransResult) (s : Segment) :
    (translateOne translator s).original = pyStrip s.text := rfl

theorem translateOne_start (translator : String → TransResult) (s : Segment) :
    (translateOne translator s).start = s.start := rfl

theorem translateOne_stop (translator : String → TransResult) (s : Segment) :
    (translateOne translator s).«end» = s.«end» := rfl

theorem translateOne_translated (translator : String → TransResult) (s : Segment) :
    (translateOne translator s).translated
      = match translator (pyStrip s.text) with
        | .ok (some t) => if t ≠ "" ∧ t ≠ pyStrip s.text then t else pyStrip s.text
        | .ok none => pyStrip s.text
        | .exn => pyStrip s.text := rfl

/-- `translate_segments` is exactly the per-segment transform mapped over
the subsequence of segments with non-empty stripped text. -/
theorem translate_segments_eq (translator : String → TransResult) (segs : List Segment) :
    translate_segments translator segs
      = (segs.filter (fun s => pyStrip s.text != "")).map (translateOne translator) := by
  induction segs with
  | nil => rfl
  | cons seg rest ih =>
    by_cases h : pyStrip seg.text = ""
    · simp [translate_segments, h, List.filter_cons, ih]
    · cases htr : translator (pyStrip seg.text) with
      | ok val =>
        cases val with
        | none => simp [translate_segments, h, htr, List.filter_cons, translateOne, ih]
        | some t =>
          by_cases hc : t ≠ "" ∧ t ≠ pyStrip seg.text
          · simp [translate_segments, h, htr, hc, List.filter_cons, translateOne, ih]
          · simp [translate_segments, h, htr, hc, List.filter_cons, translateOne, ih]
      | exn => simp [translate_segments, h, htr, List.filter_cons, translateOne, ih]

/-- Every member's `end` is bounded by `maxEnd`. -/
theorem maxEnd_le_of_mem (l : List TranslatedSegment) :
    ∀ x ∈ l, x.«end» ≤ maxEnd l := by
  induction l with
  | nil => intro x hx; cases hx
  | cons a t ih =>
    intro x hx
    cases t with
    | nil =>
      have hx' : x = a := List.mem_singleton.mp hx
      subst hx'
      simp [maxEnd]
    | cons b u =>
      rcases List.mem_cons.mp hx with rfl | hx'
      · simp [maxEnd]
      · calc x.«end» ≤ maxEnd (b :: u) := ih x hx'
          _ ≤ maxEnd (a :: b :: u) := by simp [maxEnd]

/-! ### Claims about the translation stage -/

/-- C3: for any input segment sequence, `translate_segments` returns
exactly one output element per input segment whose stripped text is
non-empty, in the same relative order as the input: the output equals
the image of the non-empty-text subsequence under the per-segment
transform, so empty-text segments are omitted and no reordering occurs. -/
theorem C3_order_preservation (translator : String → TransResult) (segs : List Segment) :
    translate_segments translator segs
      = (segs.filter (fun s => pyStrip s.text != "")).map (translateOne translator) :=
  translate_segments_eq translator segs

/-- C2 (amended): for every segment with non-empty stripped text,
`translate_segments` records the translator's output exactly when the
call succeeds with a non-empty result different from the input, and
otherwise (a raise, a falsy result, or an identical result) records the
original text; in particular, if the translation service always raises,
every output segment has `translated = original`, and no exception
escapes the stage (the model is a total function). -/
theorem C2_translation_fallback (translator : String → TransResult) (segs : List Segment) :
    (∀ o ∈ translate_segments translator segs,
      (∀ t, translator o.original = TransResult.ok (some t) → t ≠ "" → t ≠ o.original →
        o.translated = t)
      ∧ ((translator o.original = TransResult.exn
            ∨ translator o.original = TransResult.ok none
            ∨ translator o.original = TransResult.ok (some "")
            ∨ translator o.original = TransResult.ok (some o.original)) →
          o.translated = o.original))
    ∧ ((∀ s, translator s = TransResult.exn) →
      ∀ o ∈ translate_segments translator segs, o.translated = o.original) := by
  have hmain : ∀ o ∈ translate_segments translator segs,
      (∀ t, translator o.original = TransResult.ok (some t) → t ≠ "" → t ≠ o.original →
        o.translated = t)
      ∧ ((translator o.original = TransResult.exn
            ∨ translator o.original = TransResult.ok none
            ∨ translator o.original = TransResult.ok (some "")
            ∨ translator o.original = TransResult.ok (some o.original)) →
          o.translated = o.original) := by
    intro o ho
    rw [translate_segments_eq] at ho
    rcases List.mem_map.mp ho with ⟨s, _, rfl⟩
    simp only [translateOne_original, translateOne_translated]
    constructor
    · intro t ht hne hdiff
      rw [ht]
      simp [hne, hdiff]
    · rintro (hc | hc | hc | hc) <;> rw [hc] <;> simp
  refine ⟨hmain, fun hex o ho => ?_⟩
  exact (hmain o ho).2 (Or.inl (hex o.original))

/-- C2 counterexample: with the translator succeeding and returning the
empty string (which differs from the input `"hola"`), the claim as
stated requires the empty string to be recorded, but the code records
the original text `"hola"`. -/
theorem C2_counterexample :
    (translate_segments (fun _ => TransResult.ok (some "")) [⟨"hola", 0, 1⟩]).map
        (fun o => o.translated) = ["hola"]
    ∧ ("" : String) ≠ "hola" := by
  exact ⟨by decide, by decide⟩

/-- C2 witness: the success direction at a translator returning
`"hello"` for `"hola"` (the output must be recorded), and the fallback
direction with an always-raising translator. -/
theorem C2_witness :
    ((⟨"hola", "hello", 0, 1⟩ : TranslatedSegment) ∈
        translate_segments (fun _ => TransResult.ok (some "hello")) [⟨"hola", 0, 1⟩]
      ∧ (⟨"hola", "hello", 0, 1⟩ : TranslatedSegment).translated = "hello")
    ∧ ((⟨"hola", "hola", 0, 1⟩ : TranslatedSegment) ∈
        translate_segments (fun _ => TransResult.exn) [⟨"hola", 0, 1⟩]
      ∧ (⟨"hola", "hola", 0, 1⟩ : TranslatedSegment).translated
          = (⟨"hola", "hola", 0, 1⟩ : TranslatedSegment).original) :=
  ⟨⟨by decide,
    ((C2_translation_fallback (fun _ => TransResult.ok (some "hello"))
        [⟨"hola", 0, 1⟩]).1 _ (by decide)).1 "hello" rfl (by decide) (by decide)⟩,
   ⟨by decide,
    (C2_translation_fallback (fun _ => TransResult.exn) [⟨"hola", 0, 1⟩]).2
      (fun _ => rfl) _ (by decide)⟩⟩

/-- C10: when the translation call returns `None` or an empty string
without raising, the output segment records the original text as the
translated value, exactly as for a raised error or an identical result. -/
theorem C10_falsy_fallback (translator : String → TransResult) (segs : List Segment)
    (o : TranslatedSegment) (ho : o ∈ translate_segments translator segs)
    (hf : translator o.original = TransResult.ok none
      ∨ translator o.original = TransResult.ok (some "")) :
    o.translated = o.original := by
  rw [translate_segments_eq] at ho
  rcases List.mem_map.mp ho with ⟨s, _, rfl⟩
  rw [translateOne_original] at hf
  rcases hf with hf | hf
  · rw [translateOne_translated, translateOne_original, hf]
  · rw [translateOne_translated, translateOne_original, hf]
    simp

/-- C10 witness: a concrete run whose translator returns the empty
string. -/
theorem C10_witness :
    (⟨"hola", "hola", 0, 1⟩ : TranslatedSegment) ∈
        translate_segments (fun _ => TransResult.ok (some "")) [⟨"hola", 0, 1⟩]
    ∧ (⟨"hola", "hola", 0, 1⟩ : TranslatedSegment).translated
        = (⟨"hola", "hola", 0, 1⟩ : TranslatedSegment).original :=
  ⟨by decide,
    C10_falsy_fallback (fun _ => TransResult.ok (some "")) [⟨"hola", 0, 1⟩] _
      (by decide) (Or.inr (by decide))⟩

/-- C9: provided the transcription stage delivered segments with
`0 ≤ start ≤ end` (its documented data shape), every translated segment
satisfies `0 ≤ start ≤ end`, and its `end` is bounded by `maxEnd` of the
translated segments — the duration used for the base silence track — so
every positioned clip's start offset lies within the base track. -/
theorem C9_timing_invariant (translator : String → TransResult) (segs : List Segment)
    (h : ∀ s ∈ segs, 0 ≤ s.start ∧ s.start ≤ s.«end») :
    ∀ o ∈ translate_segments translator segs,
      0 ≤ o.start ∧ o.start ≤ o.«end»
        ∧ o.«end» ≤ maxEnd (translate_segments translator segs) := by
  intro o ho
  have hmax := maxEnd_le_of_mem _ o ho
  rw [translate_segments_eq] at ho
  rcases List.mem_map.mp ho with ⟨s, hs, rfl⟩
  have hs' := (List.mem_filter.mp hs).1
  obtain ⟨h1, h2⟩ := h s hs'
  exact ⟨h1, h2, hmax⟩

/-- C9 witness: a concrete one-segment run. -/
theorem C9_witness :
    0 ≤ (⟨"hola", "hola", 0, 1⟩ : TranslatedSegment).start
    ∧ (⟨"hola", "hola", 0, 1⟩ : TranslatedSegment).start
        ≤ (⟨"hola", "hola", 0, 1⟩ : TranslatedSegment).«end»
    ∧ (⟨"hola", "hola", 0, 1⟩ : TranslatedSegment).«end»
        ≤ maxEnd (translate_segments (fun _ => TransResult.exn) [⟨"hola", 0, 1⟩]) :=
  C9_timing_invariant (fun _ => TransResult.exn) [⟨"hola", 0, 1⟩] (by decide) _ (by decide)

/-! ### String and glob helper lemmas -/

theorem strToList_append (a b : String) : (a ++ b).toList = a.toList ++ b.toList := by
  simp [String.toList]

theorem strStarts_append (p x : String) : strStarts p (p ++ x) = true := by
  simp [strStarts, strToList_append, List.isPrefixOf_iff_prefix, List.prefix_append]

theorem strEnds_append2 (s x y : String) : strEnds s (x ++ (y ++ s)) = true := by
  simp [strEnds, strToList_append, List.reverse_append, List.isPrefixOf_iff_prefix]

theorem speechGlob_name (i : Nat) : speechGlob (speechName i) = true := by
  simp [speechGlob, speechName, strStarts_append, strEnds_append2]

theorem positionedGlob_name (i : Nat) : positionedGlob (positionedName i) = true := by
  simp [positionedGlob, positionedName, strStarts_append, strEnds_append2]

/-- Every file surviving `_clean_temp_files` matches none of its patterns. -/
theorem clean_no_match (video_id : String) (fs : List String) (f : String)
    (h : f ∈ _clean_temp_files video_id fs) : globMatchesJob video_id f = false := by
  have := (List.mem_filter.mp h).2
  simpa using this

/-- Every name `synthLoop` adds to `created` is a `speech_{j:04d}.mp3` or a
`positioned_{j:04d}.wav`. -/
theorem synthLoop_created_shape (o : SynthOracle) (segs : List TranslatedSegment) :
    ∀ (i : Nat) (st : SynthLoopState), ∀ f ∈ (synthLoop o i segs st).created,
      f ∈ st.created ∨ (∃ j, f = speechName j) ∨ (∃ j, f = positionedName j) := by
  induction segs with
  | nil => intro i st f hf; exact Or.inl hf
  | cons seg rest ih =>
    intro i st f hf
    simp only [synthLoop] at hf
    split at hf
    · exact ih (i + 1) st f hf
    · split at hf
      · exact ih (i + 1) st f hf
      · split at hf
        · rcases ih _ _ f hf with h | h | h
          · rcases List.mem_append.mp h with h' | h'
            · exact Or.inl h'
            · exact Or.inr (Or.inl ⟨i, List.mem_singleton.mp h'⟩)
          · exact Or.inr (Or.inl h)
          · exact Or.inr (Or.inr h)
        · split at hf
          · rcases ih _ _ f hf with h | h | h
            · rcases List.mem_append.mp h with h' | h'
              · exact Or.inl h'
              · exact Or.inr (Or.inl ⟨i, List.mem_singleton.mp h'⟩)
            · exact Or.inr (Or.inl h)
            · exact Or.inr (Or.inr h)
          · split at hf
            · rcases ih _ _ f hf with h | h | h
              · rcases List.mem_append.mp h with h' | h'
                · rcases List.mem_append.mp h' with h'' | h''
                  · exact Or.inl h''
                  · exact Or.inr (Or.inl ⟨i, List.mem_singleton.mp h''⟩)
                · exact Or.inr (Or.inr ⟨i, List.mem_singleton.mp h'⟩)
              · exact Or.inr (Or.inl h)
              · exact Or.inr (Or.inr h)
            · rcases ih _ _ f hf with h | h | h
              · rcases List.mem_append.mp h with h' | h'
                · exact Or.inl h'
                · exact Or.inr (Or.inl ⟨i, List.mem_singleton.mp h'⟩)
              · exact Or.inr (Or.inl h)
              · exact Or.inr (Or.inr h)

/-! ### Claims about the synthesis stage -/

/-- C4: `create_translated_audio_ffmpeg` returns `None` immediately on an
empty translated-segment list, and otherwise issues the silence command
with duration `max(end)` over all translated segments. -/
theorem C4_total_duration (o : SynthOracle) (segs : List TranslatedSegment)
    (vid : String) (files0 : List String) :
    (segs = [] → (create_translated_audio_ffmpeg o segs vid files0).result = none)
    ∧ (segs ≠ [] →
      (create_translated_audio_ffmpeg o segs vid files0).silenceDuration
        = some (maxEnd segs)) := by
  constructor
  · intro h; subst h; rfl
  · intro h
    have hne : segs.isEmpty = false := by
      cases segs with
      | nil => exact absurd rfl h
      | cons a l => rfl
    simp only [create_translated_audio_ffmpeg, hne]
    repeat' split
    all_goals simp_all

/-- C4 witness: the spec's own example — segments ending at 2 s and 7 s
give base duration 7 s — and the empty-list failure. -/
theorem C4_witness :
    (create_translated_audio_ffmpeg synthOracleOk [] "v_en" []).result = none
    ∧ (create_translated_audio_ffmpeg synthOracleOk
        [⟨"a", "b", 0, 2⟩, ⟨"c", "d", 5, 7⟩] "v_en" []).silenceDuration
      = some (maxEnd [⟨"a", "b", 0, 2⟩, ⟨"c", "d", 5, 7⟩])
    ∧ maxEnd [⟨"a", "b", 0, 2⟩, ⟨"c", "d", 5, 7⟩] = (7 : ℚ) :=
  ⟨(C4_total_duration synthOracleOk [] "v_en" []).1 rfl,
   (C4_total_duration synthOracleOk [⟨"a", "b", 0, 2⟩, ⟨"c", "d", 5, 7⟩] "v_en" []).2
     (by decide),
   by decide⟩

/-- C6 (amended): the positioned clips and the base silence track are
deleted only when the stage reaches the mixing step and the mix command
does not raise; on that path no `positioned_*.wav` and no base track
remain.  When the stage returns `None` because zero usable clips were
produced, or because an exception occurred during silence creation or
mixing, they are not deleted.  Each per-segment TTS synthesis file is
unlinked right after its positioning command completes without raising. -/
theorem C6_cleanup_after_mixing (o : SynthOracle) (segs : List TranslatedSegment)
    (vid : String) (files0 : List String) :
    (segs.isEmpty = false → o.silenceFails = false → o.mixFails = false →
      (synthLoop o 0 segs
          ⟨files0 ++ [vid ++ "_base_silence.wav"], [vid ++ "_base_silence.wav"],
            0⟩).successful_segments ≠ 0 →
      ∀ f ∈ (create_translated_audio_ffmpeg o segs vid files0).files,
        positionedGlob f = false ∧ f ≠ vid ++ "_base_silence.wav")
    ∧ (∀ (i : Nat) (seg : TranslatedSegment) (st : SynthLoopState),
        pyStrip seg.translated ≠ "" →
        (∃ n, o.tts i (pyStrip seg.translated) = some n ∧ n ≠ 0) →
        o.positionFails i = false →
        speechName i ∉ (synthLoop o i [seg] st).files) := by
  constructor
  · intro h1 h2 h3 h4 f hf
    simp only [create_translated_audio_ffmpeg, h1, h2, h3] at hf
    simp only [h4, if_false] at hf
    rcases hfz : o.finalSize with _ | n
    · simp only [hfz] at hf
      rcases List.mem_filter.mp hf with ⟨hf1, hbase⟩
      rcases List.mem_filter.mp hf1 with ⟨_, hpos⟩
      exact ⟨by simpa using hpos, by simpa using hbase⟩
    · rcases n with _ | k
      · simp only [hfz] at hf
        rcases List.mem_filter.mp hf with ⟨hf1, hbase⟩
        rcases List.mem_filter.mp hf1 with ⟨_, hpos⟩
        exact ⟨by simpa using hpos, by simpa using hbase⟩
      · simp only [hfz] at hf
        rcases List.mem_filter.mp hf with ⟨hf1, hbase⟩
        rcases List.mem_filter.mp hf1 with ⟨_, hpos⟩
        exact ⟨by simpa using hpos, by simpa using hbase⟩
  · rintro i seg st hts ⟨n, hn, hn0⟩ hpf
    simp only [synthLoop, hts, hn, hn0, hpf, if_false]
    by_cases hpe : o.positionedExists i = true
    · simp [synthLoop, hpe, List.mem_filter]
    · simp only [Bool.not_eq_true] at hpe
      simp [synthLoop, hpe, List.mem_filter]

/-- C6 counterexample: when every gTTS call raises, the stage returns
`None` with zero usable clips, and the base silence track
`job_en_base_silence.wav` is left in the temp directory — it is not
deleted on that outcome. -/
theorem C6_counterexample :
    (create_translated_audio_ffmpeg synthOracleAllTTSFail
        [⟨"hola", "hello", 0, 1⟩] "job_en" []).result = none
    ∧ "job_en_base_silence.wav"
        ∈ (create_translated_audio_ffmpeg synthOracleAllTTSFail
            [⟨"hola", "hello", 0, 1⟩] "job_en" []).files :=
  ⟨by decide, by decide⟩

/-- C6 witness: a fully successful one-segment run; after mixing, the
final mixed file survives the cleanup (it is neither a positioned clip
nor the base track), and the speech file of a positioned segment is
unlinked. -/
theorem C6_witness :
    (positionedGlob "job_en_final_audio.wav" = false
      ∧ "job_en_final_audio.wav" ≠ "job_en" ++ "_base_silence.wav")
    ∧ speechName 3 ∉ (synthLoop synthOracleOk 3 [⟨"hola", "hello", 0, 1⟩] ⟨[], [], 0⟩).files :=
  ⟨(C6_cleanup_after_mixing synthOracleOk [⟨"hola", "hello", 0, 1⟩] "job_en" []).1
      rfl rfl rfl (by decide) "job_en_final_audio.wav" (by decide),
   (C6_cleanup_after_mixing synthOracleOk [⟨"hola", "hello", 0, 1⟩] "job_en" []).2
      3 ⟨"hola", "hello", 0, 1⟩ ⟨[], [], 0⟩ (by decide) ⟨5, rfl, by decide⟩ rfl⟩

/-- C7 (amended): every temp name the synthesis stage creates is either
prefixed by the job identifier (the base silence track and the final
mixed track) or is a fixed-name per-segment artifact `speech_{j:04d}.mp3`
/ `positioned_{j:04d}.wav`, which does not carry the job identifier. -/
theorem C7_artifact_naming (o : SynthOracle) (segs : List TranslatedSegment)
    (vid : String) (files0 : List String) :
    ∀ f ∈ (create_translated_audio_ffmpeg o segs vid files0).created,
      strStarts vid f = true ∨ speechGlob f = true ∨ positionedGlob f = true := by
  intro f hf
  simp only [create_translated_audio_ffmpeg] at hf
  split at hf
  · cases hf
  · split at hf
    · cases hf
    · have shape :
          f ∈ [vid ++ "_base_silence.wav"] ∨ (∃ j, f = speechName j)
            ∨ (∃ j, f = positionedName j) →
          strStarts vid f = true ∨ speechGlob f = true ∨ positionedGlob f = true := by
        rintro (hb | ⟨j, rfl⟩ | ⟨j, rfl⟩)
        · rw [List.mem_singleton.mp hb]; exact Or.inl (strStarts_append vid "_base_silence.wav")
        · exact Or.inr (Or.inl (speechGlob_name j))
        · exact Or.inr (Or.inr (positionedGlob_name j))
      split at hf
      · exact shape (synthLoop_created_shape o segs 0 _ f hf)
      · split at hf
        · exact shape (synthLoop_created_shape o segs 0 _ f hf)
        · rcases hfz : o.finalSize with _ | n
          · simp only [hfz] at hf
            exact shape (synthLoop_created_shape o segs 0 _ f hf)
          · rcases n with _ | k
            · simp only [hfz] at hf
              rcases List.mem_append.mp hf with h' | h'
              · exact shape (synthLoop_created_shape o segs 0 _ f h')
              · rw [List.mem_singleton.mp h']
                exact Or.inl (strStarts_append vid "_final_audio.wav")
            · simp only [hfz] at hf
              rcases List.mem_append.mp hf with h' | h'
              · exact shape (synthLoop_created_shape o segs 0 _ f h')
              · rw [List.mem_singleton.mp h']
                exact Or.inl (strStarts_append vid "_final_audio.wav")

/-- C7 counterexample: the per-segment TTS file `speech_0000.mp3`,
created by a successful run for job `job_en`, is neither prefixed by nor
contains the job identifier — it is not scoped to the job. -/
theorem C7_counterexample :
    "speech_0000.mp3"
        ∈ (create_translated_audio_ffmpeg synthOracleOk
            [⟨"hola", "hello", 0, 1⟩] "job_en" []).created
    ∧ (strStarts "job_en" "speech_0000.mp3"
        || containsSub "speech_0000.mp3" "job_en") = false :=
  ⟨by decide, by decide⟩

/-- C7 witness: the base silence track of a concrete run, checked to be
job-prefixed or a fixed-name per-segment artifact. -/
theorem C7_witness :
    "job_en_base_silence.wav"
        ∈ (create_translated_audio_ffmpeg synthOracleOk
            [⟨"hola", "hello", 0, 1⟩] "job_en" []).created
    ∧ (strStarts "job_en" "job_en_base_silence.wav" = true
        ∨ speechGlob "job_en_base_silence.wav" = true
        ∨ positionedGlob "job_en_base_silence.wav" = true) :=
  ⟨by decide,
    C7_artifact_naming synthOracleOk [⟨"hola", "hello", 0, 1⟩] "job_en" []
      "job_en_base_silence.wav" (by decide)⟩

/-! ### Download and extraction helper lemmas -/

theorem tryDl_cons_succ (dl : Nat → DlOutcome) (i : Nat) (rest : List Nat)
    (h : dlSucc dl i = true) :
    tryDownloadStrategies dl (i :: rest) = (some (dlPathD dl i), [i]) := by
  rcases hdl : dl i with _ | ⟨p, _ | n⟩
  · simp [dlSucc, hdl] at h
  · simp [dlSucc, hdl] at h
  · have hn : 1000 < n := by simpa [dlSucc, hdl] using h
    simp [tryDownloadStrategies, dlPathD, hdl, hn]

theorem tryDl_cons_fail (dl : Nat → DlOutcome) (i : Nat) (rest : List Nat)
    (h : dlSucc dl i = false) :
    tryDownloadStrategies dl (i :: rest)
      = ((tryDownloadStrategies dl rest).1, i :: (tryDownloadStrategies dl rest).2) := by
  rcases hdl : dl i with _ | ⟨p, _ | n⟩
  · simp [tryDownloadStrategies, hdl]
  · simp [tryDownloadStrategies, hdl]
  · have hn : ¬ 1000 < n := by simpa [dlSucc, hdl] using h
    simp [tryDownloadStrategies, hdl, hn]

theorem extLoop_cons_succ (o : ExtOracle) (vp ap : String) (i : Nat) (rest : List Nat)
    (h : extSucc o i = true) :
    extLoop o vp ap (i :: rest) = (some (vp, ap), [i]) := by
  rcases hr : o.run i with _ | _ | _ | _
  · rcases hs : o.sizeAfter i with _ | n
    · simp [extSucc, hr, hs] at h
    · have hn : 1000 < n := by simpa [extSucc, hr, hs] using h
      simp [extLoop, hr, hs, hn]
  · simp [extSucc, hr] at h
  · simp [extSucc, hr] at h
  · simp [extSucc, hr] at h

theorem extLoop_cons_fail (o : ExtOracle) (vp ap : String) (i : Nat) (rest : List Nat)
    (h : extSucc o i = false) :
    extLoop o vp ap (i :: rest)
      = ((extLoop o vp ap rest).1, i :: (extLoop o vp ap rest).2) := by
  rcases hr : o.run i with _ | _ | _ | _
  · rcases hs : o.sizeAfter i with _ | n
    · simp [extLoop, hr, hs]
    · have hn : ¬ 1000 < n := by simpa [extSucc, hr, hs] using h
      simp [extLoop, hr, hs, hn]
  · simp [extLoop, hr]
  · simp [extLoop, hr]
  · simp [extLoop, hr]

/-! ### Claims about the acquisition stage -/

/-- C5: `download_video_robust` tries the three strategies in order,
stopping at the first whose file exceeds the 1000-byte threshold, with
each earlier failed strategy attempted exactly once; when no strategy
succeeds it returns no path at all (both components `none`); when
strategy `j` is the first success, the attempted list is exactly
`[0, …, j]` and the result is the extraction run on strategy `j`'s
path. -/
theorem C5_strategy_fallback (dl : Nat → DlOutcome) (ext : ExtOracle)
    (vid : String) (files0 : List String) :
    ((∀ i, i < 3 → dlSucc dl i = false) →
      (download_video_robust dl ext vid files0).video = none
      ∧ (download_video_robust dl ext vid files0).audio = none
      ∧ (download_video_robust dl ext vid files0).attempts = [0, 1, 2])
    ∧ (∀ j, j < 3 → dlSucc dl j = true → (∀ i, i < j → dlSucc dl i = false) →
      (download_video_robust dl ext vid files0).attempts = List.range (j + 1)
      ∧ (download_video_robust dl ext vid files0).video
          = (_extract_audio_ffmpeg ext (dlPathD dl j) vid).video
      ∧ (download_video_robust dl ext vid files0).audio
          = (_extract_audio_ffmpeg ext (dlPathD dl j) vid).audio) := by
  constructor
  · intro hall
    have e0 := tryDl_cons_fail dl 0 [1, 2] (hall 0 (by omega))
    have e1 := tryDl_cons_fail dl 1 [2] (hall 1 (by omega))
    have e2 := tryDl_cons_fail dl 2 [] (hall 2 (by omega))
    have key : tryDownloadStrategies dl [0, 1, 2] = (none, [0, 1, 2]) := by
      rw [e0, e1, e2]; rfl
    simp [download_video_robust, key]
  · intro j hj hsucc hprev
    interval_cases j
    · have key : tryDownloadStrategies dl [0, 1, 2] = (some (dlPathD dl 0), [0]) :=
        tryDl_cons_succ dl 0 [1, 2] hsucc
      have hr : List.range (0 + 1) = [0] := by decide
      simp [download_video_robust, key, hr]
    · have e0 := tryDl_cons_fail dl 0 [1, 2] (hprev 0 (by omega))
      have e1 := tryDl_cons_succ dl 1 [2] hsucc
      have key : tryDownloadStrategies dl [0, 1, 2] = (some (dlPathD dl 1), [0, 1]) := by
        rw [e0, e1]
      have hr : List.range (1 + 1) = [0, 1] := by decide
      simp [download_video_robust, key, hr]
    · have e0 := tryDl_cons_fail dl 0 [1, 2] (hprev 0 (by omega))
      have e1 := tryDl_cons_fail dl 1 [2] (hprev 1 (by omega))
      have e2 := tryDl_cons_succ dl 2 [] hsucc
      have key : tryDownloadStrategies dl [0, 1, 2] = (some (dlPathD dl 2), [0, 1, 2]) := by
        rw [e0, e1, e2]
      have hr : List.range (2 + 1) = [0, 1, 2] := by decide
      simp [download_video_robust, key, hr]

/-- C5 witness: strategies 1 and 2 raise and strategy 3 yields a
5000-byte file; the result is the extraction run on strategy 3's path
and all three strategies were attempted, each once. -/
theorem C5_witness :
    (download_video_robust wDl wExt "v_en" []).attempts = List.range (2 + 1)
    ∧ (download_video_robust wDl wExt "v_en" []).video
        = (_extract_audio_ffmpeg wExt (dlPathD wDl 2) "v_en").video
    ∧ (download_video_robust wDl wExt "v_en" []).audio
        = (_extract_audio_ffmpeg wExt (dlPathD wDl 2) "v_en").audio :=
  (C5_strategy_fallback wDl wExt "v_en" []).2 2 (by decide) (by decide) (by decide)

/-- C8: `_extract_audio_ffmpeg` tries its three command variants in
order; a timed-out or non-zero-exit attempt never counts as a success
and the next command is tried; it returns the `(video, audio)` paths
exactly when some command returns normally leaving an output file larger
than 1000 bytes, and returns no paths once all three commands are
exhausted. -/
theorem C8_extraction_fallback (o : ExtOracle) (video_path vid : String) :
    ((∀ i, i < 3 → extSucc o i = false) →
      (_extract_audio_ffmpeg o video_path vid).video = none
      ∧ (_extract_audio_ffmpeg o video_path vid).audio = none
      ∧ (_extract_audio_ffmpeg o video_path vid).attempts = [0, 1, 2])
    ∧ (∀ j, j < 3 → extSucc o j = true → (∀ i, i < j → extSucc o i = false) →
      (_extract_audio_ffmpeg o video_path vid).video = some video_path
      ∧ (_extract_audio_ffmpeg o video_path vid).audio = some (vid ++ "_audio.wav")
      ∧ (_extract_audio_ffmpeg o video_path vid).attempts = List.range (j + 1))
    ∧ (∀ i, o.run i = CmdOutcome.nonzero ∨ o.run i = CmdOutcome.timeout →
      extSucc o i = false) := by
  refine ⟨?_, ?_, ?_⟩
  · intro hall
    have e0 := extLoop_cons_fail o video_path (vid ++ "_audio.wav") 0 [1, 2] (hall 0 (by omega))
    have e1 := extLoop_cons_fail o video_path (vid ++ "_audio.wav") 1 [2] (hall 1 (by omega))
    have e2 := extLoop_cons_fail o video_path (vid ++ "_audio.wav") 2 [] (hall 2 (by omega))
    have key : extLoop o video_path (vid ++ "_audio.wav") [0, 1, 2] = (none, [0, 1, 2]) := by
      rw [e0, e1, e2]; rfl
    simp [_extract_audio_ffmpeg, key]
  · intro j hj hsucc hprev
    interval_cases j
    · have key : extLoop o video_path (vid ++ "_audio.wav") [0, 1, 2]
          = (some (video_path, vid ++ "_audio.wav"), [0]) :=
        extLoop_cons_succ o video_path (vid ++ "_audio.wav") 0 [1, 2] hsucc
      have hr : List.range (0 + 1) = [0] := by decide
      simp [_extract_audio_ffmpeg, key, hr]
    · have e0 := extLoop_cons_fail o video_path (vid ++ "_audio.wav") 0 [1, 2] (hprev 0 (by omega))
      have e1 := extLoop_cons_succ o video_path (vid ++ "_audio.wav") 1 [2] hsucc
      have key : extLoop o video_path (vid ++ "_audio.wav") [0, 1, 2]
          = (some (video_path, vid ++ "_audio.wav"), [0, 1]) := by
        rw [e0, e1]
      have hr : List.range (1 + 1) = [0, 1] := by decide
      simp [_extract_audio_ffmpeg, key, hr]
    · have e0 := extLoop_cons_fail o video_path (vid ++ "_audio.wav") 0 [1, 2] (hprev 0 (by omega))
      have e1 := extLoop_cons_fail o video_path (vid ++ "_audio.wav") 1 [2] (hprev 1 (by omega))
      have e2 := extLoop_cons_succ o video_path (vid ++ "_audio.wav") 2 [] hsucc
      have key : extLoop o video_path (vid ++ "_audio.wav") [0, 1, 2]
          = (some (video_path, vid ++ "_audio.wav"), [0, 1, 2]) := by
        rw [e0, e1, e2]
      have hr : List.range (2 + 1) = [0, 1, 2] := by decide
      simp [_extract_audio_ffmpeg, key, hr]
  · rintro i (h | h) <;> simp [extSucc, h]

/-- C8 witness: command 1 times out, command 2 exits non-zero, command 3
succeeds with a 2000-byte output file. -/
theorem C8_witness :
    (_extract_audio_ffmpeg wExt "v_en.mp4" "v_en").video = some "v_en.mp4"
    ∧ (_extract_audio_ffmpeg wExt "v_en.mp4" "v_en").audio = some ("v_en" ++ "_audio.wav")
    ∧ (_extract_audio_ffmpeg wExt "v_en.mp4" "v_en").attempts = List.range (2 + 1) :=
  (C8_extraction_fallback wExt "v_en.mp4" "v_en").2.1 2 (by decide) (by decide) (by decide)

/-! ### Claims about the pipeline orchestrator -/

/-- Every run of `translate_video` either took an early `return None`
after a falsy stage result, or its final temp-directory contents are the
output of `_clean_temp_files`. -/
theorem translate_video_files_shape (env : PipeEnv) (vid : String) (files0 : List String) :
    (translate_video env vid files0).terminal = TerminalKind.stageNull
    ∨ ∃ fs, (translate_video env vid files0).files = _clean_temp_files vid fs := by
  unfold translate_video
  repeat' first
    | split
    | dsimp only
  all_goals first
    | exact Or.inl rfl
    | exact Or.inr ⟨_, rfl⟩

/-- C1 (amended): `translate_video` performs the job-scoped temp-file
cleanup before returning on the success path and in both exception
handlers (generic exception and user interrupt), so on those terminal
outcomes no file matching the job identifier remains; but when a stage
returns a null/empty result, it returns `None` without cleanup, and
job-scoped temp files can remain. -/
theorem C1_cleanup_on_non_null_outcomes (env : PipeEnv) (vid : String) (files0 : List String)
    (h : (translate_video env vid files0).terminal ≠ TerminalKind.stageNull)
    (f : String) (hf : f ∈ (translate_video env vid files0).files) :
    globMatchesJob vid f = false := by
  rcases translate_video_files_shape env vid files0 with hnull | ⟨fs, hfs⟩
  · exact absurd hnull h
  · rw [hfs] at hf
    exact clean_no_match vid fs f hf

/-- C1 counterexample: the download stage downloads `job_en.mp4` into
the temp directory and then fails audio extraction, returning
`(None, None)`; `translate_video` returns `None` on that path without
cleanup, and the job-matching file `job_en.mp4` remains. -/
theorem C1_counterexample :
    (translate_video envDlFail "job_en" []).result = none
    ∧ "job_en.mp4" ∈ (translate_video envDlFail "job_en" []).files
    ∧ globMatchesJob "job_en" "job_en.mp4" = true :=
  ⟨by decide, by decide, by decide⟩

/-- C1 witness: a fully successful run cleans up; the surviving file
`keepme.txt` matches no job pattern. -/
theorem C1_witness :
    (translate_video envAllOk "job_en" ["keepme.txt"]).terminal ≠ TerminalKind.stageNull
    ∧ globMatchesJob "job_en" "keepme.txt" = false :=
  ⟨by decide,
    C1_cleanup_on_non_null_outcomes envAllOk "job_en" ["keepme.txt"] (by decide)
      "keepme.txt" (by decide)⟩

end YTTranslator
